import Mathlib

/-!
Verification of the smart-paper-generator front-end against its specification.

The relevant program fragments (cascading academic selector, difficulty
rebalancing, generation payload construction, paper-detail normalisation,
student statistics, login retry, 401 interceptor) are shallowly embedded as
executable Lean definitions that mirror the TypeScript source line by line.
JavaScript numerics are modelled as follows: integer-valued quantities are
Nat or Int; `Math.round` on a non-negative rational a/b is the Nat
computation `(2*a + b) / (2*b)`; division whose JS result is not a finite
number (NaN or an infinity, arising from a zero divisor) is modelled by
`Option`, with `none` standing for the non-finite result, which propagates
through sums, rounding and comparisons exactly as NaN does.
-/

/-- Model of `Math.round (a / b)` for natural `a` and positive natural `b`:
floor of `a / b + 1/2`, computed as `(2*a + b) / (2*b)` in Nat division
(JS rounds ties of non-negative arguments upward, as floor of `x + 1/2`). -/
def jsRound (a b : ℕ) : ℕ := (2 * a + b) / (2 * b)

/-- Model of `Math.round q` for a finite (rational) JS number: floor of `q + 1/2`. -/
def qRound (q : ℚ) : ℤ := ⌊q + 1 / 2⌋

/-- A primitive JSON field value as the front-end sees it: a string,
a number, or `undefined` (the field is absent). -/
inductive JsVal where
  | str (s : String)
  | num (n : ℤ)
  | undefined
deriving DecidableEq, Repr

/-- JS truthiness of a primitive value: empty strings, `0` and `undefined`
are falsy. -/
def truthy : JsVal → Bool
  | .str s => s ≠ ""
  | .num n => n ≠ 0
  | .undefined => false

/-- Template-literal stringification of a primitive value. -/
def jsToString : JsVal → String
  | .str s => s
  | .num n => toString n
  | .undefined => "undefined"

/-- A backend row object: an association list of field names to values. -/
abbrev Item : Type := List (String × JsVal)

/-- Property access `item[key]`: the first binding of `key`, or `undefined`. -/
def jsGet (item : Item) (key : String) : JsVal :=
  match item.find? (fun p => p.1 == key) with
  | some p => p.2
  | none => .undefined

/-- Model of `String.prototype.replace` with a string pattern replaces only the
first occurrence; recursion over the character list of the subject. -/
def replaceFirstAux (s pat repl : List Char) : List Char :=
  match s with
  | [] => []
  | c :: cs =>
      if (c :: cs).take pat.length = pat then
        repl ++ (c :: cs).drop pat.length
      else
        c :: replaceFirstAux cs pat repl

/-- Model of `s.replace(pat, repl)` for string arguments (first occurrence only). -/
def replaceFirst (s pat repl : String) : String :=
  String.mk (replaceFirstAux s.toList pat.toList repl.toList)

/-- The three difficulty dimensions of the distribution sliders. -/
inductive Dim where
  | easy
  | medium
  | hard
deriving DecidableEq, Repr

/-- The difficulty-distribution state `{easy, medium, hard}` of
`GeneratePaper` (percentages, initially `{30, 50, 20}`). -/
structure Difficulty where
  easy : ℕ
  medium : ℕ
  hard : ℕ
deriving DecidableEq, Repr

/-- Read one dimension of the distribution. -/
def Difficulty.get (d : Difficulty) : Dim → ℕ
  | .easy => d.easy
  | .medium => d.medium
  | .hard => d.hard

/-- Write one dimension of the distribution. -/
def Difficulty.set (d : Difficulty) : Dim → ℕ → Difficulty
  | .easy, v => { d with easy := v }
  | .medium, v => { d with medium := v }
  | .hard, v => { d with hard := v }

/-- Sum of the three percentages. -/
def Difficulty.total (d : Difficulty) : ℕ := d.easy + d.medium + d.hard

/-- The `others` pair of `handleDifficultyChange`: the two dimensions left
untouched by an adjustment, in source order. -/
def others : Dim → Dim × Dim
  | .easy => (.medium, .hard)
  | .medium => (.easy, .hard)
  | .hard => (.easy, .medium)

/-- Model of `handleDifficultyChange(type, value)` of `GeneratePaper.tsx`:
`remaining = 100 - value`; `otherTotal` is the prior sum of the two other
dimensions; `ratio = otherTotal > 0 ? remaining / otherTotal : 0.5`; each
other dimension becomes `Math.round(old * ratio)`.  Faithful for
`value ≤ 100` (the slider range is 0..100). -/
def handleDifficultyChange (d : Difficulty) (t : Dim) (v : ℕ) : Difficulty :=
  let remaining := 100 - v
  let o := others t
  let otherTotal := d.get o.1 + d.get o.2
  let n1 := if 0 < otherTotal then jsRound (d.get o.1 * remaining) otherTotal
            else jsRound (d.get o.1) 2
  let n2 := if 0 < otherTotal then jsRound (d.get o.2 * remaining) otherTotal
            else jsRound (d.get o.2) 2
  ((d.set t v).set o.1 n1).set o.2 n2

/-- A backend list response as `normalizeOptions` receives it: either a JS
array of row objects, or any non-array value. -/
inductive ApiData where
  | arr (items : List Item)
  | other
deriving Repr

/-- An option of a dropdown as built by `normalizeOptions`: at runtime both
fields carry whatever primitive value the row contained. -/
structure SelectOption where
  id : JsVal
  name : JsVal
deriving DecidableEq, Repr

/-- The name synthesised for a row without a usable name field:
the name key with the first occurrence of the suffix markers stripped,
a space, and the row's id value interpolated. -/
def synthName (item : Item) (idKey nameKey : String) : String :=
  replaceFirst (replaceFirst nameKey ("_name") ("")) ("_number") ("")
    ++ " " ++ jsToString (jsGet item idKey)

/-- Model of `normalizeOptions(data, idKey, nameKey)` of `GeneratePaper.tsx`:
a non-array yields `[]`; otherwise each row maps to an option whose `id` is
`item[idKey]` and whose `name` is `item[nameKey] || synthesised-string`
(JS `||`, so a falsy name field also falls through to the synthesis). -/
def normalizeOptions (data : ApiData) (idKey nameKey : String) : List SelectOption :=
  match data with
  | .other => []
  | .arr items =>
      items.map fun item =>
        { id := jsGet item idKey
          name :=
            if truthy (jsGet item nameKey) then jsGet item nameKey
            else .str (synthName item idKey nameKey) }

/-- The selector state of `GeneratePaper`: five option lists and five
selected ids (empty string = nothing selected). -/
structure SelectorState where
  years : List SelectOption
  semesters : List SelectOption
  subjects : List SelectOption
  units : List SelectOption
  topics : List SelectOption
  selectedYear : String
  selectedSemester : String
  selectedSubject : String
  selectedUnit : String
  selectedTopic : String
deriving Repr

/-- Synchronous prefix of `handleYearChange`: store the new year and clear
every downstream selection and option list before the fetch is awaited. -/
def handleYearChangeSync (s : SelectorState) (yearId : String) : SelectorState :=
  { s with selectedYear := yearId
           selectedSemester := ""
           selectedSubject := ""
           selectedUnit := ""
           selectedTopic := ""
           semesters := []
           subjects := []
           units := []
           topics := [] }

/-- Model of `handleYearChange(yearId)`: the synchronous clearing followed by the
semester fetch; `none` is a failed request (the catch branch only toasts),
`some data` populates the semester list through `normalizeOptions` with the
display prefix applied. -/
def handleYearChange (s : SelectorState) (yearId : String)
    (fetched : Option ApiData) : SelectorState :=
  let s1 := handleYearChangeSync s yearId
  match fetched with
  | some data =>
      let opts := (normalizeOptions data ("semester_id") ("semester_number")).map
        (fun o => { o with name := JsVal.str ("Semester " ++ jsToString o.name) })
      { s1 with semesters := opts }
  | none => s1

/-- Synchronous prefix of `handleSemesterChange`. -/
def handleSemesterChangeSync (s : SelectorState) (semesterId : String) : SelectorState :=
  { s with selectedSemester := semesterId
           selectedSubject := ""
           selectedUnit := ""
           selectedTopic := ""
           subjects := []
           units := []
           topics := [] }

/-- Model of `handleSemesterChange(semesterId)`: clear downstream, then populate the
subject list on a successful fetch. -/
def handleSemesterChange (s : SelectorState) (semesterId : String)
    (fetched : Option ApiData) : SelectorState :=
  let s1 := handleSemesterChangeSync s semesterId
  match fetched with
  | some data =>
      { s1 with subjects := normalizeOptions data ("subject_id") ("subject_name") }
  | none => s1

/-- Synchronous prefix of `handleSubjectChange`. -/
def handleSubjectChangeSync (s : SelectorState) (subjectId : String) : SelectorState :=
  { s with selectedSubject := subjectId
           selectedUnit := ""
           selectedTopic := ""
           units := []
           topics := [] }

/-- Model of `handleSubjectChange(subjectId)`: clear downstream, then populate the
unit list on a successful fetch (with the display prefix applied). -/
def handleSubjectChange (s : SelectorState) (subjectId : String)
    (fetched : Option ApiData) : SelectorState :=
  let s1 := handleSubjectChangeSync s subjectId
  match fetched with
  | some data =>
      let opts := (normalizeOptions data ("unit_id") ("unit_number")).map
        (fun o => { o with name := JsVal.str ("Unit " ++ jsToString o.name) })
      { s1 with units := opts }
  | none => s1

/-- Synchronous prefix of `handleUnitChange`. -/
def handleUnitChangeSync (s : SelectorState) (unitId : String) : SelectorState :=
  { s with selectedUnit := unitId
           selectedTopic := ""
           topics := [] }

/-- Model of `handleUnitChange(unitId)`: clear the topic selection and list, then
populate the topic list on a successful fetch. -/
def handleUnitChange (s : SelectorState) (unitId : String)
    (fetched : Option ApiData) : SelectorState :=
  let s1 := handleUnitChangeSync s unitId
  match fetched with
  | some data =>
      { s1 with topics := normalizeOptions data ("topic_id") ("topic_name") }
  | none => s1

/-- The four cascading levels whose change handlers reset descendants
(the topic handler merely stores the selection). -/
inductive SelLevel where
  | year
  | semester
  | subject
  | unit
deriving DecidableEq, Repr

/-- Numeric depth of a level in the year=0 .. topic=4 hierarchy. -/
def levelIdx : SelLevel → ℕ
  | .year => 0
  | .semester => 1
  | .subject => 2
  | .unit => 3

/-- Dispatch to the change handler of a level (synchronous prefix only). -/
def selectAtSync (lv : SelLevel) (s : SelectorState) (id : String) : SelectorState :=
  match lv with
  | .year => handleYearChangeSync s id
  | .semester => handleSemesterChangeSync s id
  | .subject => handleSubjectChangeSync s id
  | .unit => handleUnitChangeSync s id

/-- Dispatch to the full change handler of a level. -/
def selectAt (lv : SelLevel) (s : SelectorState) (id : String)
    (fetched : Option ApiData) : SelectorState :=
  match lv with
  | .year => handleYearChange s id fetched
  | .semester => handleSemesterChange s id fetched
  | .subject => handleSubjectChange s id fetched
  | .unit => handleUnitChange s id fetched

/-- The selection stored at depth `i` (out-of-range depths read as empty). -/
def selectionAt (s : SelectorState) (i : ℕ) : String :=
  match i with
  | 0 => s.selectedYear
  | 1 => s.selectedSemester
  | 2 => s.selectedSubject
  | 3 => s.selectedUnit
  | 4 => s.selectedTopic
  | _ => ""

/-- The option list stored at depth `i` (out-of-range depths read as empty). -/
def optionsAt (s : SelectorState) (i : ℕ) : List SelectOption :=
  match i with
  | 0 => s.years
  | 1 => s.semesters
  | 2 => s.subjects
  | 3 => s.units
  | 4 => s.topics
  | _ => []

/-- JS `a || b` for an optional string `a` with fallback `b`: a present
non-empty string is returned, an absent or empty one falls through. -/
def jsOrS (o : Option String) (d : String) : String :=
  match o with
  | some t => if t = "" then d else t
  | none => d

/-- A question of a paper as `PaperPreview.tsx` declares it (fields the
normaliser never writes are kept optional exactly as in the interface). -/
structure Question where
  id : Option ℤ
  question_number : Option ℕ
  text : String
  difficulty : String
  bloom : String
  bloom_level : Option String
  marks : ℤ
  topic : Option String
  unit : Option String
deriving DecidableEq, Repr

/-- A section of a paper detail payload: either a container of nested
questions or itself a flattened question. -/
structure Section where
  section_id : Option ℤ
  section_name : Option String
  title : Option String
  questions : Option (List Question)
  text : Option String
  difficulty : Option String
  bloom : Option String
  marks : Option ℤ
deriving DecidableEq, Repr

/-- A paper detail payload (both backend shapes). -/
structure Paper where
  paper_id : Option ℤ
  total_marks : Option ℤ
  total_questions : Option ℕ
  questions : Option (List Question)
  sections : Option (List Section)
deriving DecidableEq, Repr

/-- The question object built for one section in the sections-as-questions
branch of `getAllQuestions` (index `i`, section `s`): `id` is
`s.section_id || i` (JS `||`: a zero id also falls back to the index),
`text` is `s.text || s.title || ''`, `difficulty` and `bloom` default to
"medium" and "understand", `marks` to `0`. -/
def sectionAsQuestion (i : ℕ) (s : Section) : Question :=
  { id := some (match s.section_id with
      | some n => if n = 0 then (i : ℤ) else n
      | none => (i : ℤ))
    question_number := some (i + 1)
    text := jsOrS s.text (jsOrS s.title "")
    difficulty := jsOrS s.difficulty ("medium")
    bloom := jsOrS s.bloom ("understand")
    bloom_level := s.bloom
    marks := (match s.marks with
      | some m => if m = 0 then 0 else m
      | none => 0)
    topic := none
    unit := none }

/-- Model of `getAllQuestions` of `PaperPreview.tsx`: (1) non-empty `sections` whose
first element carries a `questions` array → flatten every section's
questions (`s.questions || []`); (2) non-empty `sections` without nested
questions → one `sectionAsQuestion` per section; (3) otherwise the
top-level `questions` array, or `[]`. -/
def getAllQuestions (p : Paper) : List Question :=
  match p.sections with
  | some (s0 :: rest) =>
      match s0.questions with
      | some _ => (s0 :: rest).flatMap (fun s => s.questions.getD [])
      | none => ((s0 :: rest).enum).map (fun pr => sectionAsQuestion pr.1 pr.2)
  | _ => p.questions.getD []

/-- The difficulty map of the generation payload (enum-cased keys as the
backend expects them). -/
structure DifficultyDistributionPayload where
  Easy : ℕ
  Medium : ℕ
  Hard : ℕ
deriving DecidableEq, Repr

/-- JS `parseInt` restricted to the decimal digit strings the dropdowns
produce: value of the longest digit prefix, or `none` (`NaN`). -/
def parseIntJs (s : String) : Option ℕ :=
  let ds := s.toList.takeWhile (fun c => c.isDigit)
  if ds = [] then none
  else some (ds.foldl (fun n c => 10 * n + (c.toNat - 48)) 0)

/-- The request payload assembled by `handleGenerate` (the fixed
`marks_map` `{Easy:5, Medium:10, Hard:15}` and the constants are carried
verbatim). -/
structure GeneratePayload where
  subject_id : Option ℕ
  paper_model_id : ℕ
  ai_engine : String
  difficulty_distribution : DifficultyDistributionPayload
  unit_topic_map : List (String × JsVal)
  marks_map_easy : ℕ
  marks_map_medium : ℕ
  marks_map_hard : ℕ
  generated_by : ℕ
deriving DecidableEq, Repr

/-- Model of `handleGenerate` of `GeneratePaper.tsx` up to the API call: `none` when
the subject/unit/topic guard fires (only a toast happens), otherwise the
payload that is posted, with `Math.round(percentage / 10)` per difficulty
and the topic name resolved as `topics.find(...)?.name || ''`. -/
def handleGenerate (selectedSubject selectedUnit selectedTopic aiEngine : String)
    (topics : List SelectOption) (difficulty : Difficulty) : Option GeneratePayload :=
  if selectedSubject = "" ∨ selectedUnit = "" ∨ selectedTopic = "" then none
  else
    let topicName :=
      match topics.find? (fun t => jsToString t.id == selectedTopic) with
      | some t => if truthy t.name then t.name else .str ""
      | none => .str ""
    some
      { subject_id := parseIntJs selectedSubject
        paper_model_id := 1
        ai_engine := if aiEngine = "openai" then "OPENAI" else "RULE_ML_HYBRID"
        difficulty_distribution :=
          { Easy := jsRound difficulty.easy 10
            Medium := jsRound difficulty.medium 10
            Hard := jsRound difficulty.hard 10 }
        unit_topic_map := [(selectedUnit, topicName)]
        marks_map_easy := 5
        marks_map_medium := 10
        marks_map_hard := 15
        generated_by := 1 }

/-- One uploaded student result row as the Students page stores it after
the transform of `loadStudents` (difficulty breakdown already flattened). -/
structure Student where
  result_id : ℕ
  student_id : ℕ
  paper_id : ℕ
  marks_obtained : ℕ
  max_marks : ℕ
  easy : ℕ
  medium : ℕ
  hard : ℕ
deriving DecidableEq, Repr

/-- The percentage score `marks_obtained / max_marks * 100` of a row;
`none` when `max_marks` is zero (the JS result is then not finite). -/
def score (s : Student) : Option ℚ :=
  if s.max_marks = 0 then none
  else some ((s.marks_obtained : ℚ) / (s.max_marks : ℚ) * 100)

/-- A left fold of JS `+` over possibly non-finite numbers: one NaN operand
poisons the whole sum. -/
def nanSum (l : List (Option ℚ)) : Option ℚ :=
  l.foldl
    (fun acc o =>
      match acc, o with
      | some a, some b => some (a + b)
      | _, _ => none)
    (some 0)

/-- JS `>` on possibly non-finite numbers: any comparison involving NaN is
false. -/
def jsGt (a b : Option ℚ) : Bool :=
  match a, b with
  | some x, some y => decide (y < x)
  | _, _ => false

/-- The per-student analytics object of the Students page. -/
structure StudentAnalytics where
  student_id : ℕ
  name : String
  total_papers : ℕ
  average_score : Option ℤ
  breakdown_easy : ℕ
  breakdown_medium : ℕ
  breakdown_hard : ℕ
  performance_trend : List (ℕ × Option ℤ)
deriving DecidableEq, Repr

/-- The catch branch of `handleViewAnalytics` in `Students.tsx`: analytics
built locally from the already-loaded rows when the backend endpoint
fails.  `average_score` is `Math.round(sum-of-scores / record-count)` with
no guard on the count: zero matching rows divide zero by zero (`none`,
i.e. NaN). -/
def handleViewAnalyticsFallback (students : List Student) (student : Student) :
    StudentAnalytics :=
  let records := students.filter (fun s => s.student_id == student.student_id)
  { student_id := student.student_id
    name := "Student " ++ toString student.student_id
    total_papers := records.length
    average_score :=
      (match nanSum (records.map score) with
        | some total =>
            if records.length = 0 then none
            else some (qRound (total / (records.length : ℚ)))
        | none => none)
    breakdown_easy := records.foldl (fun acc s => acc + s.easy) 0
    breakdown_medium := records.foldl (fun acc s => acc + s.medium) 0
    breakdown_hard := records.foldl (fun acc s => acc + s.hard) 0
    performance_trend := records.map (fun s => (s.paper_id, (score s).map qRound)) }

/-- The fleet statistics object of the Students page. -/
structure StudentsStats where
  total_students : ℕ
  active_students : ℕ
  avg_score : Option ℤ
  top_performer : Option (String × Option ℤ)
deriving DecidableEq, Repr

/-- Insertion into a JS `Map` built from key/value pairs: an existing key
is overwritten in place, a new key is appended. -/
def mapUpsert {α : Type} (m : List (ℕ × α)) (k : ℕ) (v : α) : List (ℕ × α) :=
  if m.any (fun p => p.1 == k) then
    m.map (fun p => if p.1 == k then (k, v) else p)
  else
    m ++ [(k, v)]

/-- Model of `new Map(pairs)`: fold the pair list into an insertion-ordered map with
last-write-wins values. -/
def jsMapOfList {α : Type} (l : List (ℕ × α)) : List (ℕ × α) :=
  l.foldl (fun m p => mapUpsert m p.1 p.2) []

/-- Model of `calculateStats(data)` of `Students.tsx`: `null` for an empty list;
otherwise `uniqueStudents` is `[...new Map(data.map(s => [s.student_id, s])).values()]`,
both student counters are its length, `avg_score` is the rounded mean of
the row scores, and the top performer is the reduce over `data` seeded
with `data[0]` under JS `>` (the `top ? ... : 0` alternative is dead:
`top` is always an object). -/
def calculateStats (data : List Student) : Option StudentsStats :=
  match data with
  | [] => none
  | d0 :: rest =>
      let uniqueStudents :=
        (jsMapOfList ((d0 :: rest).map (fun s => (s.student_id, s)))).map (fun p => p.2)
      let avgScore :=
        (match nanSum ((d0 :: rest).map score) with
          | some total => some (qRound (total / ((d0 :: rest).length : ℚ)))
          | none => none)
      let topPerformer :=
        (d0 :: rest).foldl (fun top s => if jsGt (score s) (score top) then s else top) d0
      some
        { total_students := uniqueStudents.length
          active_students := uniqueStudents.length
          avg_score := avgScore
          top_performer :=
            some ("Student " ++ toString topPerformer.student_id,
              (score topPerformer).map qRound) }

/-- A login request body: the JSON attempt or the form-url-encoded retry. -/
inductive LoginBody where
  | json (username password : String)
  | form (username password : String)
deriving DecidableEq, Repr

/-- Outcome of one HTTP attempt: success with a data payload, or an error
whose response status may be absent (network failure). -/
inductive HttpResult where
  | ok (data : String)
  | err (status : Option ℕ)
deriving DecidableEq, Repr

/-- Model of `authApi.login` of `api.ts` against an abstract backend `respond`
mapping each request body to its outcome.  Returns the overall outcome and
the list of requests actually sent: the JSON body first, and the
form-url-encoded body with the same credentials exactly when the first
attempt failed with status 422; the second outcome, success or failure,
is returned as-is, and any non-422 first failure is rethrown. -/
def login (username password : String) (respond : LoginBody → HttpResult) :
    HttpResult × List LoginBody :=
  match respond (.json username password) with
  | .ok t => (.ok t, [.json username password])
  | .err st =>
      if st = some 422 then
        (respond (.form username password),
         [.json username password, .form username password])
      else
        (.err st, [.json username password])

/-- Browser state touched by the response interceptor: the stored bearer
token and the current location. -/
structure BrowserState where
  token : Option String
  href : String
deriving DecidableEq, Repr

/-- The response-error interceptor of `api.ts`, applied to every response
of the shared axios instance regardless of originating call: a 401 removes
the stored token and navigates to the login route; every error is then
rejected onward to the caller (the `Bool` is that propagation). -/
def onResponseError (st : BrowserState) (status : Option ℕ) :
    BrowserState × Bool :=
  if status = some 401 then
    ({ st with token := none, href := "/login" }, true)
  else
    (st, true)

/-- Division bounds characterising `jsRound`: `2*b*(jsRound a b)` lies in
the half-open window `(2*a - b, 2*a + b]`. -/
theorem jsRound_bounds (a b : ℕ) (hb : 0 < b) :
    2 * b * jsRound a b ≤ 2 * a + b ∧ 2 * a + b < 2 * b * jsRound a b + 2 * b := by
  have hm := Nat.div_add_mod (2 * a + b) (2 * b)
  have hlt : (2 * a + b) % (2 * b) < 2 * b := Nat.mod_lt _ (by omega)
  unfold jsRound
  omega

/-- C7: `login` sends the credentials as JSON first; exactly when that
attempt fails with HTTP 422 it retries once with the same credentials
form-url-encoded, returning the retry outcome (success or failure) as-is;
a success or a non-422 failure of the first attempt is returned at once
with no retry. -/
theorem login_retry_spec (u p : String) (respond : LoginBody → HttpResult) :
    (∀ t, respond (.json u p) = .ok t → login u p respond = (.ok t, [.json u p])) ∧
    (respond (.json u p) = .err (some 422) →
      login u p respond = (respond (.form u p), [.json u p, .form u p])) ∧
    (∀ st, respond (.json u p) = .err st → st ≠ some 422 →
      login u p respond = (.err st, [.json u p])) ∧
    ((login u p respond).2 = [.json u p] ∨
      ((login u p respond).2 = [.json u p, .form u p] ∧
        respond (.json u p) = .err (some 422))) := by
  cases hr : respond (.json u p) with
  | ok t => simp [login, hr]
  | err st =>
      by_cases h422 : st = some 422 <;>
        simp [login, hr, h422]

/-- Witness for C7: a backend that 422s the JSON attempt and accepts the
form retry makes `login` return the retry's token after both requests. -/
theorem login_retry_spec_witness :
    login ("u") ("p")
        (fun b => match b with
          | .json _ _ => .err (some 422)
          | .form _ _ => .ok ("tok"))
      = (.ok ("tok"), [.json ("u") ("p"), .form ("u") ("p")]) := by
  have h := (login_retry_spec ("u") ("p")
    (fun b => match b with
      | .json _ _ => .err (some 422)
      | .form _ _ => .ok ("tok"))).2.1 rfl
  simpa using h

/-- C8: a 401 response to any call through the shared instance clears the
stored token and navigates to the login route, and the error is still
propagated; every other status leaves the browser state alone and also
propagates. -/
theorem interceptor_401_spec (st : BrowserState) (status : Option ℕ) :
    (status = some 401 →
      onResponseError st status = ({ token := none, href := "/login" }, true)) ∧
    (status ≠ some 401 → onResponseError st status = (st, true)) ∧
    (onResponseError st status).2 = true := by
  by_cases h : status = some 401 <;> simp [onResponseError, h]

/-- Witness for C8: a 401 on a state holding a token removes the token and
redirects to the login route. -/
theorem interceptor_401_spec_witness :
    onResponseError ⟨some ("tok"), ("/papers")⟩ (some 401)
      = (⟨none, ("/login")⟩, true) :=
  (interceptor_401_spec ⟨some ("tok"), ("/papers")⟩ (some 401)).1 rfl

/-- C6: evaluating the local analytics fallback at a student none of whose
rows are loaded: `total_papers` is 0 as the claim says, but
`average_score` is the unguarded `Math.round(0 / 0)`, i.e. NaN (`none`),
not 0 — the division by the row count has no guard in the code. -/
theorem handleViewAnalyticsFallback_zero_rows :
    (handleViewAnalyticsFallback [] ⟨1, 7, 1, 0, 0, 0, 0, 0⟩).total_papers = 0 ∧
    (handleViewAnalyticsFallback [] ⟨1, 7, 1, 0, 0, 0, 0, 0⟩).average_score = none ∧
    (handleViewAnalyticsFallback [] ⟨1, 7, 1, 0, 0, 0, 0, 0⟩).average_score ≠ some 0 := by
  refine ⟨rfl, rfl, by decide⟩

/-- C3: when the paper's `sections` list is non-empty and its first section
carries a nested `questions` array, the normaliser returns the
concatenation of every section's questions (an absent `questions` field of
a later section contributing the empty list), in section order and
preserving question order within each section. -/
theorem getAllQuestions_nested (p : Paper) (s0 : Section) (rest : List Section)
    (qs0 : List Question) (hs : p.sections = some (s0 :: rest))
    (hq : s0.questions = some qs0) :
    getAllQuestions p = ((s0 :: rest).map (fun s => s.questions.getD [])).flatten := by
  simp [getAllQuestions, hs, hq, List.flatMap]

/-- Witness for C3: a two-section paper with one and two nested questions
flattens to the three questions in order. -/
theorem getAllQuestions_nested_witness :
    getAllQuestions
      { paper_id := none, total_marks := none, total_questions := none,
        questions := none,
        sections :=
          some [{ section_id := none, section_name := none, title := none,
                  questions := some [⟨none, none, ("q1"), ("easy"), ("remember"), none, 5, none, none⟩],
                  text := none, difficulty := none, bloom := none, marks := none },
                { section_id := none, section_name := none, title := none,
                  questions := some [⟨none, none, ("q2"), ("medium"), ("apply"), none, 10, none, none⟩,
                                     ⟨none, none, ("q3"), ("hard"), ("create"), none, 15, none, none⟩],
                  text := none, difficulty := none, bloom := none, marks := none }] }
      = [⟨none, none, ("q1"), ("easy"), ("remember"), none, 5, none, none⟩,
         ⟨none, none, ("q2"), ("medium"), ("apply"), none, 10, none, none⟩,
         ⟨none, none, ("q3"), ("hard"), ("create"), none, 15, none, none⟩] := by
  have h := getAllQuestions_nested
    { paper_id := none, total_marks := none, total_questions := none,
      questions := none,
      sections :=
        some [{ section_id := none, section_name := none, title := none,
                questions := some [⟨none, none, ("q1"), ("easy"), ("remember"), none, 5, none, none⟩],
                text := none, difficulty := none, bloom := none, marks := none },
              { section_id := none, section_name := none, title := none,
                questions := some [⟨none, none, ("q2"), ("medium"), ("apply"), none, 10, none, none⟩,
                                   ⟨none, none, ("q3"), ("hard"), ("create"), none, 15, none, none⟩],
                text := none, difficulty := none, bloom := none, marks := none }]}
    _ _ [⟨none, none, ("q1"), ("easy"), ("remember"), none, 5, none, none⟩] rfl rfl
  exact h.trans (by decide)

/-- C4: when the paper's `sections` list is non-empty and its first section
has no nested `questions` array, the normaliser returns exactly one
question per section, in section order (indices numbering them from 1),
with a missing `difficulty` defaulting to "medium", a missing `bloom`
defaulting to "understand", a present non-empty `text` mapped through, and
`marks` mapped through (defaulting to 0 when absent). -/
theorem getAllQuestions_flat (p : Paper) (s0 : Section) (rest : List Section)
    (hs : p.sections = some (s0 :: rest)) (hq : s0.questions = none) :
    getAllQuestions p = ((s0 :: rest).enum).map (fun pr => sectionAsQuestion pr.1 pr.2) ∧
    (getAllQuestions p).length = (s0 :: rest).length ∧
    (∀ (i : ℕ) (s : Section), s.difficulty = none →
      (sectionAsQuestion i s).difficulty = "medium") ∧
    (∀ (i : ℕ) (s : Section), s.bloom = none →
      (sectionAsQuestion i s).bloom = "understand") ∧
    (∀ (i : ℕ) (s : Section) (t : String), s.text = some t → t ≠ "" →
      (sectionAsQuestion i s).text = t) ∧
    (∀ (i : ℕ) (s : Section), (sectionAsQuestion i s).marks = s.marks.getD 0) ∧
    (∀ (i : ℕ) (s : Section), (sectionAsQuestion i s).question_number = some (i + 1)) := by
  have hmain : getAllQuestions p
      = ((s0 :: rest).enum).map (fun pr => sectionAsQuestion pr.1 pr.2) := by
    simp [getAllQuestions, hs, hq]
  refine ⟨hmain, ?_, ?_, ?_, ?_, ?_, ?_⟩
  · rw [hmain]; simp
  · intro i s h; simp [sectionAsQuestion, jsOrS, h]
  · intro i s h; simp [sectionAsQuestion, jsOrS, h]
  · intro i s t h ht; simp [sectionAsQuestion, jsOrS, h, ht]
  · intro i s
    rcases hm : s.marks with _ | m <;> simp [sectionAsQuestion, hm]
    omega
  · intro i s; simp [sectionAsQuestion]

/-- Witness for C4: a paper whose two sections are themselves the
questions yields two questions with the defaulted difficulty and bloom. -/
theorem getAllQuestions_flat_witness :
    getAllQuestions
      { paper_id := none, total_marks := none, total_questions := none,
        questions := none,
        sections :=
          some [{ section_id := some 9, section_name := none, title := none,
                  questions := none, text := some ("State the law."),
                  difficulty := none, bloom := none, marks := some 5 },
                { section_id := none, section_name := none, title := none,
                  questions := none, text := some ("Prove it."),
                  difficulty := some ("hard"), bloom := some ("create"), marks := some 10 }] }
      = [⟨some 9, some 1, ("State the law."), ("medium"), ("understand"), none, 5, none, none⟩,
         ⟨some 1, some 2, ("Prove it."), ("hard"), ("create"), some ("create"), 10, none, none⟩] := by
  have h := getAllQuestions_flat
    { paper_id := none, total_marks := none, total_questions := none,
      questions := none,
      sections :=
        some [{ section_id := some 9, section_name := none, title := none,
                questions := none, text := some ("State the law."),
                difficulty := none, bloom := none, marks := some 5 },
              { section_id := none, section_name := none, title := none,
                questions := none, text := some ("Prove it."),
                difficulty := some ("hard"), bloom := some ("create"), marks := some 10 }]}
    _ _ rfl rfl
  exact h.1.trans (by decide)

/-- Counterexample to C10 as stated: a row whose name field is present but
empty.  `normalizeOptions` does not use the present name field (`""`); the
JS `||` sees the empty string as falsy and synthesises "subject 7". -/
theorem normalizeOptions_present_name_counterexample :
    normalizeOptions
        (.arr [[(("subject_id"), JsVal.num 7), (("subject_name"), JsVal.str "")]])
        ("subject_id") ("subject_name")
      = [{ id := JsVal.num 7, name := JsVal.str ("subject 7") }] ∧
    jsGet [(("subject_id"), JsVal.num 7), (("subject_name"), JsVal.str "")]
        ("subject_name") = JsVal.str "" ∧
    JsVal.str ("subject 7") ≠ JsVal.str "" := by
  refine ⟨by decide, by decide, by decide⟩

/-- C10 (amended): `normalizeOptions` on a non-array returns the empty
list; on an array it returns one option per element in order, whose name
is the element's name field when that field is present and truthy (a
non-empty string or non-zero number) and otherwise the non-empty string
synthesised from the id key and the element's id value. -/
theorem normalizeOptions_spec (idKey nameKey : String) :
    normalizeOptions .other idKey nameKey = [] ∧
    (∀ items : List Item,
      (normalizeOptions (.arr items) idKey nameKey).length = items.length) ∧
    (∀ (items : List Item) (i : ℕ) (it : Item), items.get? i = some it →
      (normalizeOptions (.arr items) idKey nameKey).get? i =
        some { id := jsGet it idKey
               name := if truthy (jsGet it nameKey) then jsGet it nameKey
                       else .str (synthName it idKey nameKey) }) ∧
    (∀ it : Item, synthName it idKey nameKey ≠ "") := by
  refine ⟨rfl, ?_, ?_, ?_⟩
  · intro items; simp [normalizeOptions]
  · intro items i it h
    rw [List.get?_eq_getElem?] at h
    simp [normalizeOptions, List.getElem?_map, h]
  · intro it h
    have h2 := congrArg String.length h
    rw [synthName] at h2
    simp [String.length_append] at h2
    exact absurd h2.1.2 (by decide)

/-- Witness for C10 (amended): a row with an absent name field gets the
synthesised name "year 3" and its id carried over. -/
theorem normalizeOptions_spec_witness :
    (normalizeOptions (.arr [[(("year_id"), JsVal.num 3)]]) ("year_id") ("year_number")).get? 0
      = some { id := JsVal.num 3, name := JsVal.str ("year 3") } := by
  have h := (normalizeOptions_spec ("year_id") ("year_number")).2.2.1
    [[(("year_id"), JsVal.num 3)]] 0 [(("year_id"), JsVal.num 3)] rfl
  exact h.trans (by decide)

/-- C2: selecting a value at level k (year=0, semester=1, subject=2,
unit=3) synchronously clears the selections and empties the option lists
of every level strictly below k; after the handler completes (with the
child fetch either failing or delivering any data) every selection below k
is still cleared, every option list strictly below k+1 is still empty, and
any non-empty descendant option list (only the immediate child list can be
one) has its parent level selected. -/
theorem selector_cascade (lv : SelLevel) (s : SelectorState) (id : String)
    (fetched : Option ApiData) :
    (∀ j : ℕ, levelIdx lv < j → j ≤ 4 →
      selectionAt (selectAtSync lv s id) j = "" ∧
      optionsAt (selectAtSync lv s id) j = []) ∧
    selectionAt (selectAt lv s id fetched) (levelIdx lv) = id ∧
    (∀ j : ℕ, levelIdx lv < j → j ≤ 4 →
      selectionAt (selectAt lv s id fetched) j = "") ∧
    (∀ j : ℕ, levelIdx lv + 1 < j → j ≤ 4 →
      optionsAt (selectAt lv s id fetched) j = []) ∧
    (id ≠ "" → ∀ j : ℕ, levelIdx lv < j → j ≤ 4 →
      optionsAt (selectAt lv s id fetched) j ≠ [] →
      selectionAt (selectAt lv s id fetched) (j - 1) ≠ "") := by
  cases lv <;> cases fetched <;>
    refine ⟨?_, ?_, ?_, ?_, ?_⟩ <;>
    first
      | (intro hid j h1 h2 hopt
         simp only [levelIdx] at h1 h2
         interval_cases j <;>
           simp_all [selectAtSync, selectAt, handleYearChangeSync, handleYearChange,
             handleSemesterChangeSync, handleSemesterChange, handleSubjectChangeSync,
             handleSubjectChange, handleUnitChangeSync, handleUnitChange,
             selectionAt, optionsAt])
      | (intro j h1 h2
         simp only [levelIdx] at h1 h2
         interval_cases j <;>
           simp_all [selectAtSync, selectAt, handleYearChangeSync, handleYearChange,
             handleSemesterChangeSync, handleSemesterChange, handleSubjectChangeSync,
             handleSubjectChange, handleUnitChangeSync, handleUnitChange,
             selectionAt, optionsAt])
      | simp [selectAtSync, selectAt, handleYearChangeSync, handleYearChange,
          handleSemesterChangeSync, handleSemesterChange, handleSubjectChangeSync,
          handleSubjectChange, handleUnitChangeSync, handleUnitChange,
          selectionAt, optionsAt, levelIdx]

/-- Witness for C2: selecting a year in a fully populated state leaves the
subject selection (two levels below) cleared even after the fetch lands. -/
theorem selector_cascade_witness :
    selectionAt
      (selectAt .year
        ⟨[], [], [], [], [], ("1"), ("2"), ("3"), ("4"), ("5")⟩
        ("9") (some .other)) 2 = "" := by
  have h := selector_cascade .year
    ⟨[], [], [], [], [], ("1"), ("2"), ("3"), ("4"), ("5")⟩ ("9") (some .other)
  exact h.2.2.1 2 (by decide) (by decide)

/-- Splitting `remaining` over two rounded shares: when the untouched pair
has positive total, the rounded shares sum to `remaining` or
`remaining + 1`. -/
theorem jsRound_pair_sum (b1 b2 rem : ℕ) (hT : 0 < b1 + b2) :
    rem ≤ jsRound (b1 * rem) (b1 + b2) + jsRound (b2 * rem) (b1 + b2) ∧
    jsRound (b1 * rem) (b1 + b2) + jsRound (b2 * rem) (b1 + b2) ≤ rem + 1 := by
  obtain ⟨u1, v1⟩ := jsRound_bounds (b1 * rem) (b1 + b2) hT
  obtain ⟨u2, v2⟩ := jsRound_bounds (b2 * rem) (b1 + b2) hT
  constructor
  · have h1 : 2 * (b1 + b2) * rem + 2 * (b1 + b2)
        < 2 * (b1 + b2) * (jsRound (b1 * rem) (b1 + b2)
            + jsRound (b2 * rem) (b1 + b2) + 1) + 2 * (b1 + b2) := by
      calc 2 * (b1 + b2) * rem + 2 * (b1 + b2)
          = (2 * (b1 * rem) + (b1 + b2)) + (2 * (b2 * rem) + (b1 + b2)) := by ring
        _ < (2 * (b1 + b2) * jsRound (b1 * rem) (b1 + b2) + 2 * (b1 + b2))
            + (2 * (b1 + b2) * jsRound (b2 * rem) (b1 + b2) + 2 * (b1 + b2)) :=
              add_lt_add v1 v2
        _ = 2 * (b1 + b2) * (jsRound (b1 * rem) (b1 + b2)
              + jsRound (b2 * rem) (b1 + b2) + 1) + 2 * (b1 + b2) := by ring
    have h2 := Nat.lt_of_add_lt_add_right h1
    exact Nat.lt_succ_iff.mp (Nat.lt_of_mul_lt_mul_left h2)
  · have h1 : 2 * (b1 + b2) * (jsRound (b1 * rem) (b1 + b2)
        + jsRound (b2 * rem) (b1 + b2)) ≤ 2 * (b1 + b2) * (rem + 1) := by
      calc 2 * (b1 + b2) * (jsRound (b1 * rem) (b1 + b2)
            + jsRound (b2 * rem) (b1 + b2))
          = 2 * (b1 + b2) * jsRound (b1 * rem) (b1 + b2)
            + 2 * (b1 + b2) * jsRound (b2 * rem) (b1 + b2) := by ring
        _ ≤ (2 * (b1 * rem) + (b1 + b2)) + (2 * (b2 * rem) + (b1 + b2)) :=
              add_le_add u1 u2
        _ = 2 * (b1 + b2) * (rem + 1) := by ring
    exact Nat.le_of_mul_le_mul_left h1 (by omega)

/-- The adjusted value plus the two rounded shares lies in `[100, 101]`
whenever the untouched pair had positive total. -/
theorem jsRound_pair_sum_total (b1 b2 v : ℕ) (hv : v ≤ 100) (hT : 0 < b1 + b2) :
    100 ≤ v + jsRound (b1 * (100 - v)) (b1 + b2) + jsRound (b2 * (100 - v)) (b1 + b2) ∧
    v + jsRound (b1 * (100 - v)) (b1 + b2) + jsRound (b2 * (100 - v)) (b1 + b2) ≤ 101 := by
  obtain ⟨lo, hi⟩ := jsRound_pair_sum b1 b2 (100 - v) hT
  revert lo hi
  generalize jsRound (b1 * (100 - v)) (b1 + b2) = q1
  generalize jsRound (b2 * (100 - v)) (b1 + b2) = q2
  intro lo hi
  omega

/-- Cross-ratio preservation of the rounded shares: the determinant of the
new pair against the old pair is at most half the old total. -/
theorem jsRound_pair_ratio (b1 b2 rem : ℕ) (hT : 0 < b1 + b2) :
    |2 * ((jsRound (b1 * rem) (b1 + b2) : ℤ) * b2
        - (jsRound (b2 * rem) (b1 + b2) : ℤ) * b1)|
      ≤ (b1 : ℤ) + b2 := by
  obtain ⟨u1, v1⟩ := jsRound_bounds (b1 * rem) (b1 + b2) hT
  obtain ⟨u2, v2⟩ := jsRound_bounds (b2 * rem) (b1 + b2) hT
  have hTpos : (0 : ℤ) < (b1 : ℤ) + b2 := by exact_mod_cast hT
  have hb1 : (0 : ℤ) ≤ (b1 : ℤ) := Int.natCast_nonneg b1
  have hb2 : (0 : ℤ) ≤ (b2 : ℤ) := Int.natCast_nonneg b2
  have u1' : 2 * ((b1 : ℤ) + b2) * (jsRound (b1 * rem) (b1 + b2) : ℤ)
      ≤ 2 * ((b1 : ℤ) * rem) + ((b1 : ℤ) + b2) := by exact_mod_cast u1
  have v1' : 2 * ((b1 : ℤ) * rem) + ((b1 : ℤ) + b2)
      < 2 * ((b1 : ℤ) + b2) * (jsRound (b1 * rem) (b1 + b2) : ℤ)
        + 2 * ((b1 : ℤ) + b2) := by exact_mod_cast v1
  have u2' : 2 * ((b1 : ℤ) + b2) * (jsRound (b2 * rem) (b1 + b2) : ℤ)
      ≤ 2 * ((b2 : ℤ) * rem) + ((b1 : ℤ) + b2) := by exact_mod_cast u2
  have v2' : 2 * ((b2 : ℤ) * rem) + ((b1 : ℤ) + b2)
      < 2 * ((b1 : ℤ) + b2) * (jsRound (b2 * rem) (b1 + b2) : ℤ)
        + 2 * ((b1 : ℤ) + b2) := by exact_mod_cast v2
  have m1 : 2 * ((b1 : ℤ) + b2) * (jsRound (b1 * rem) (b1 + b2) : ℤ) * b2
      ≤ (2 * ((b1 : ℤ) * rem) + ((b1 : ℤ) + b2)) * b2 :=
    mul_le_mul_of_nonneg_right u1' hb2
  have m2 : (2 * ((b2 : ℤ) * rem) + ((b1 : ℤ) + b2) - 2 * ((b1 : ℤ) + b2)) * b1
      ≤ 2 * ((b1 : ℤ) + b2) * (jsRound (b2 * rem) (b1 + b2) : ℤ) * b1 :=
    mul_le_mul_of_nonneg_right (by linarith) hb1
  have m3 : 2 * ((b1 : ℤ) + b2) * (jsRound (b2 * rem) (b1 + b2) : ℤ) * b1
      ≤ (2 * ((b2 : ℤ) * rem) + ((b1 : ℤ) + b2)) * b1 :=
    mul_le_mul_of_nonneg_right u2' hb1
  have m4 : (2 * ((b1 : ℤ) * rem) + ((b1 : ℤ) + b2) - 2 * ((b1 : ℤ) + b2)) * b2
      ≤ 2 * ((b1 : ℤ) + b2) * (jsRound (b1 * rem) (b1 + b2) : ℤ) * b2 :=
    mul_le_mul_of_nonneg_right (by linarith) hb2
  rw [abs_le]
  constructor
  · have key : ((b1 : ℤ) + b2) * (-((b1 : ℤ) + b2))
        ≤ ((b1 : ℤ) + b2) * (2 * ((jsRound (b1 * rem) (b1 + b2) : ℤ) * b2
            - (jsRound (b2 * rem) (b1 + b2) : ℤ) * b1)) := by
      nlinarith [m3, m4]
    exact le_of_mul_le_mul_left key hTpos
  · have key : ((b1 : ℤ) + b2) * (2 * ((jsRound (b1 * rem) (b1 + b2) : ℤ) * b2
        - (jsRound (b2 * rem) (b1 + b2) : ℤ) * b1))
        ≤ ((b1 : ℤ) + b2) * ((b1 : ℤ) + b2) := by
      nlinarith [m1, m2]
    exact le_of_mul_le_mul_left key hTpos

/-- Counterexample to C1 as stated: from the reachable state
`easy := 100, medium := 0, hard := 0` (obtained from the initial state by
`setDifficulty(easy, 100)`), the call `setDifficulty(easy, 50)` leaves the
untouched dimensions at 0 instead of splitting the remaining 50 as 25/25:
the `otherTotal = 0` branch multiplies the old values (both zero) by 0.5,
so nothing is redistributed and the three values sum to 50, not 100 ± 2. -/
theorem handleDifficultyChange_counterexample :
    handleDifficultyChange ⟨100, 0, 0⟩ .easy 50 = ⟨50, 0, 0⟩ ∧
    (handleDifficultyChange ⟨100, 0, 0⟩ .easy 50).medium ≠ 25 ∧
    (handleDifficultyChange ⟨100, 0, 0⟩ .easy 50).total = 50 ∧
    ¬(98 ≤ (handleDifficultyChange ⟨100, 0, 0⟩ .easy 50).total ∧
      (handleDifficultyChange ⟨100, 0, 0⟩ .easy 50).total ≤ 102) := by
  refine ⟨by decide, by decide, by decide, by decide⟩

/-- C1 (amended): `setDifficulty(t, v)` with `v ≤ 100` stores `v` at `t`;
when the untouched pair's prior sum `otherTotal` is positive, each
untouched dimension becomes `round(old * (100 - v) / otherTotal)`, the
three values then sum to 100 or 101 (within the claimed 100 ± 2), and the
untouched ratio is preserved within rounding (the cross determinant of the
new pair against the old pair is at most `otherTotal / 2`); when
`otherTotal` is 0 both untouched dimensions are 0 and stay 0 — the
remaining `100 - v` is not redistributed — so the values sum to `v`. -/
theorem handleDifficultyChange_spec (d : Difficulty) (t : Dim) (v : ℕ)
    (hv : v ≤ 100) :
    (handleDifficultyChange d t v).get t = v ∧
    (0 < d.get (others t).1 + d.get (others t).2 →
      (handleDifficultyChange d t v).get (others t).1
        = jsRound (d.get (others t).1 * (100 - v))
            (d.get (others t).1 + d.get (others t).2) ∧
      (handleDifficultyChange d t v).get (others t).2
        = jsRound (d.get (others t).2 * (100 - v))
            (d.get (others t).1 + d.get (others t).2) ∧
      100 ≤ (handleDifficultyChange d t v).total ∧
      (handleDifficultyChange d t v).total ≤ 101 ∧
      |2 * (((handleDifficultyChange d t v).get (others t).1 : ℤ)
            * d.get (others t).2
          - ((handleDifficultyChange d t v).get (others t).2 : ℤ)
            * d.get (others t).1)|
        ≤ (d.get (others t).1 : ℤ) + d.get (others t).2) ∧
    (d.get (others t).1 + d.get (others t).2 = 0 →
      (handleDifficultyChange d t v).get (others t).1 = 0 ∧
      (handleDifficultyChange d t v).get (others t).2 = 0 ∧
      (handleDifficultyChange d t v).total = v) := by
  cases t
  case easy =>
    simp only [others, Difficulty.get]
    have e0 : (handleDifficultyChange d .easy v).easy = v := by
      simp [handleDifficultyChange, others, Difficulty.get, Difficulty.set]
    by_cases hT : 0 < d.medium + d.hard
    · have e1 : (handleDifficultyChange d .easy v).medium
          = jsRound (d.medium * (100 - v)) (d.medium + d.hard) := by
        simp [handleDifficultyChange, others, Difficulty.get, Difficulty.set, hT]
      have e2 : (handleDifficultyChange d .easy v).hard
          = jsRound (d.hard * (100 - v)) (d.medium + d.hard) := by
        simp [handleDifficultyChange, others, Difficulty.get, Difficulty.set, hT]
      have et : (handleDifficultyChange d .easy v).total
          = (handleDifficultyChange d .easy v).easy
            + (handleDifficultyChange d .easy v).medium
            + (handleDifficultyChange d .easy v).hard := rfl
      rw [e0, e1, e2] at et
      obtain ⟨lo, hi⟩ := jsRound_pair_sum_total d.medium d.hard v hv hT
      refine ⟨e0, fun _ => ⟨e1, e2, by linarith, by linarith, ?_⟩,
        fun h0 => absurd h0 (by omega)⟩
      rw [e1, e2]
      exact jsRound_pair_ratio d.medium d.hard (100 - v) hT
    · have hz1 : d.medium = 0 := by omega
      have hz2 : d.hard = 0 := by omega
      have hj : jsRound 0 2 = 0 := by decide
      have z1 : (handleDifficultyChange d .easy v).medium = 0 := by
        simp [handleDifficultyChange, others, Difficulty.get, Difficulty.set, hT, hz1, hz2, hj]
      have z2 : (handleDifficultyChange d .easy v).hard = 0 := by
        simp [handleDifficultyChange, others, Difficulty.get, Difficulty.set, hT, hz1, hz2, hj]
      refine ⟨e0, fun hT2 => absurd hT2 hT, fun _ => ⟨z1, z2, ?_⟩⟩
      have et : (handleDifficultyChange d .easy v).total
          = (handleDifficultyChange d .easy v).easy
            + (handleDifficultyChange d .easy v).medium
            + (handleDifficultyChange d .easy v).hard := rfl
      rw [e0, z1, z2] at et
      omega
  case medium =>
    simp only [others, Difficulty.get]
    have e0 : (handleDifficultyChange d .medium v).medium = v := by
      simp [handleDifficultyChange, others, Difficulty.get, Difficulty.set]
    by_cases hT : 0 < d.easy + d.hard
    · have e1 : (handleDifficultyChange d .medium v).easy
          = jsRound (d.easy * (100 - v)) (d.easy + d.hard) := by
        simp [handleDifficultyChange, others, Difficulty.get, Difficulty.set, hT]
      have e2 : (handleDifficultyChange d .medium v).hard
          = jsRound (d.hard * (100 - v)) (d.easy + d.hard) := by
        simp [handleDifficultyChange, others, Difficulty.get, Difficulty.set, hT]
      have et : (handleDifficultyChange d .medium v).total
          = (handleDifficultyChange d .medium v).easy
            + (handleDifficultyChange d .medium v).medium
            + (handleDifficultyChange d .medium v).hard := rfl
      rw [e0, e1, e2] at et
      obtain ⟨lo, hi⟩ := jsRound_pair_sum_total d.easy d.hard v hv hT
      refine ⟨e0, fun _ => ⟨e1, e2, by linarith, by linarith, ?_⟩,
        fun h0 => absurd h0 (by omega)⟩
      rw [e1, e2]
      exact jsRound_pair_ratio d.easy d.hard (100 - v) hT
    · have hz1 : d.easy = 0 := by omega
      have hz2 : d.hard = 0 := by omega
      have hj : jsRound 0 2 = 0 := by decide
      have z1 : (handleDifficultyChange d .medium v).easy = 0 := by
        simp [handleDifficultyChange, others, Difficulty.get, Difficulty.set, hT, hz1, hz2, hj]
      have z2 : (handleDifficultyChange d .medium v).hard = 0 := by
        simp [handleDifficultyChange, others, Difficulty.get, Difficulty.set, hT, hz1, hz2, hj]
      refine ⟨e0, fun hT2 => absurd hT2 hT, fun _ => ⟨z1, z2, ?_⟩⟩
      have et : (handleDifficultyChange d .medium v).total
          = (handleDifficultyChange d .medium v).easy
            + (handleDifficultyChange d .medium v).medium
            + (handleDifficultyChange d .medium v).hard := rfl
      rw [e0, z1, z2] at et
      omega
  case hard =>
    simp only [others, Difficulty.get]
    have e0 : (handleDifficultyChange d .hard v).hard = v := by
      simp [handleDifficultyChange, others, Difficulty.get, Difficulty.set]
    by_cases hT : 0 < d.easy + d.medium
    · have e1 : (handleDifficultyChange d .hard v).easy
          = jsRound (d.easy * (100 - v)) (d.easy + d.medium) := by
        simp [handleDifficultyChange, others, Difficulty.get, Difficulty.set, hT]
      have e2 : (handleDifficultyChange d .hard v).medium
          = jsRound (d.medium * (100 - v)) (d.easy + d.medium) := by
        simp [handleDifficultyChange, others, Difficulty.get, Difficulty.set, hT]
      have et : (handleDifficultyChange d .hard v).total
          = (handleDifficultyChange d .hard v).easy
            + (handleDifficultyChange d .hard v).medium
            + (handleDifficultyChange d .hard v).hard := rfl
      rw [e0, e1, e2] at et
      obtain ⟨lo, hi⟩ := jsRound_pair_sum_total d.easy d.medium v hv hT
      refine ⟨e0, fun _ => ⟨e1, e2, by linarith, by linarith, ?_⟩,
        fun h0 => absurd h0 (by omega)⟩
      rw [e1, e2]
      exact jsRound_pair_ratio d.easy d.medium (100 - v) hT
    · have hz1 : d.easy = 0 := by omega
      have hz2 : d.medium = 0 := by omega
      have hj : jsRound 0 2 = 0 := by decide
      have z1 : (handleDifficultyChange d .hard v).easy = 0 := by
        simp [handleDifficultyChange, others, Difficulty.get, Difficulty.set, hT, hz1, hz2, hj]
      have z2 : (handleDifficultyChange d .hard v).medium = 0 := by
        simp [handleDifficultyChange, others, Difficulty.get, Difficulty.set, hT, hz1, hz2, hj]
      refine ⟨e0, fun hT2 => absurd hT2 hT, fun _ => ⟨z1, z2, ?_⟩⟩
      have et : (handleDifficultyChange d .hard v).total
          = (handleDifficultyChange d .hard v).easy
            + (handleDifficultyChange d .hard v).medium
            + (handleDifficultyChange d .hard v).hard := rfl
      rw [e0, z1, z2] at et
      omega

/-- Witness for C1 (amended): adjusting easy to 40 from the initial
distribution rebalances medium to `round(50 * 60 / 70) = 43` and keeps the
total at 100 or 101. -/
theorem handleDifficultyChange_spec_witness :
    (40 : ℕ) ≤ 100 ∧
    (handleDifficultyChange ⟨30, 50, 20⟩ .easy 40).medium = 43 ∧
    100 ≤ (handleDifficultyChange ⟨30, 50, 20⟩ .easy 40).total := by
  have h := handleDifficultyChange_spec ⟨30, 50, 20⟩ .easy 40 (by decide)
  refine ⟨by decide, ?_, ?_⟩
  · exact ((h.2.1 (by decide)).1).trans (by decide)
  · exact (h.2.1 (by decide)).2.2.1

/-- Keys of a `Map` upsert: an existing key leaves the key list unchanged,
a new key is appended. -/
theorem map_fst_mapUpsert {α : Type} (m : List (ℕ × α)) (k : ℕ) (v : α) :
    (mapUpsert m k v).map (fun p => p.1)
      = if k ∈ m.map (fun p => p.1) then m.map (fun p => p.1)
        else m.map (fun p => p.1) ++ [k] := by
  have hany : ((m.any (fun p => p.1 == k)) = true) ↔ k ∈ m.map (fun p => p.1) := by
    simp [List.any_eq_true, List.mem_map, beq_iff_eq]
  unfold mapUpsert
  by_cases hmem : k ∈ m.map (fun p => p.1)
  · rw [if_pos (hany.mpr hmem), if_pos hmem, List.map_map]
    apply List.map_congr_left
    intro p _
    by_cases h : (p.1 == k) = true
    · simp only [Function.comp, h, if_true]
      exact (beq_iff_eq.mp h).symm
    · simp [Function.comp, h]
  · rw [if_neg (fun h => hmem (hany.mp h)), if_neg hmem]
    simp

/-- Invariant of the `new Map(...)` fold: starting from a map with
duplicate-free keys, the folded map still has duplicate-free keys and its
key set is the union of the seed's keys and the inserted keys. -/
theorem jsMap_fold_invariant {α : Type} (l : List (ℕ × α)) :
    ∀ m : List (ℕ × α), ((m.map (fun p => p.1)).Nodup) →
      ((l.foldl (fun acc p => mapUpsert acc p.1 p.2) m).map (fun p => p.1)).Nodup ∧
      ((l.foldl (fun acc p => mapUpsert acc p.1 p.2) m).map (fun p => p.1)).toFinset
        = (m.map (fun p => p.1)).toFinset ∪ (l.map (fun p => p.1)).toFinset := by
  induction l with
  | nil =>
      intro m hm
      exact ⟨hm, by simp⟩
  | cons p l ih =>
      intro m hm
      have hstep := map_fst_mapUpsert m p.1 p.2
      by_cases hmem : p.1 ∈ m.map (fun q => q.1)
      · have h1 : (mapUpsert m p.1 p.2).map (fun q => q.1) = m.map (fun q => q.1) := by
          rw [hstep, if_pos hmem]
        obtain ⟨hn, hf⟩ := ih (mapUpsert m p.1 p.2) (by rw [h1]; exact hm)
        refine ⟨hn, ?_⟩
        rw [List.foldl_cons, hf, h1]
        ext x
        simp only [Finset.mem_union, List.mem_toFinset, List.map_cons, List.mem_cons]
        constructor
        · rintro (hx | hx)
          · exact Or.inl hx
          · exact Or.inr (Or.inr hx)
        · rintro (hx | (rfl | hx))
          · exact Or.inl hx
          · exact Or.inl hmem
          · exact Or.inr hx
      · have h1 : (mapUpsert m p.1 p.2).map (fun q => q.1)
            = m.map (fun q => q.1) ++ [p.1] := by
          rw [hstep, if_neg hmem]
        have hm' : ((mapUpsert m p.1 p.2).map (fun q => q.1)).Nodup := by
          rw [h1]
          simp [List.nodup_append, hm, hmem]
        obtain ⟨hn, hf⟩ := ih (mapUpsert m p.1 p.2) hm'
        refine ⟨hn, ?_⟩
        rw [List.foldl_cons, hf, h1]
        ext x
        simp only [Finset.mem_union, List.mem_toFinset, List.map_cons, List.mem_cons,
          List.mem_append, List.mem_singleton]
        tauto

/-- The size of the `new Map(...)` built from a pair list is the number of
distinct keys of that list. -/
theorem jsMapOfList_length {α : Type} (l : List (ℕ × α)) :
    (jsMapOfList l).length = ((l.map (fun p => p.1)).dedup).length := by
  obtain ⟨hnodup, hfin⟩ := jsMap_fold_invariant l [] (by simp)
  simp only [List.map_nil, List.toFinset_nil, Finset.empty_union] at hfin
  simp only [jsMapOfList]
  rw [show (List.foldl (fun acc p => mapUpsert acc p.1 p.2) ([] : List (ℕ × α)) l).length
      = ((List.foldl (fun acc p => mapUpsert acc p.1 p.2) ([] : List (ℕ × α)) l).map
          (fun p => p.1)).length by simp]
  rw [← List.toFinset_card_of_nodup hnodup, hfin, List.card_toFinset]

/-- C9: for a non-empty row list `calculateStats` returns stats whose
`total_students` is the number of distinct `student_id` values among the
rows and whose `active_students` always equals `total_students` (both are
the length of the same de-duplicated `Map`). -/
theorem calculateStats_spec (data : List Student) :
    (data ≠ [] → (calculateStats data).isSome = true) ∧
    (∀ st, calculateStats data = some st →
      st.total_students = ((data.map (fun s => s.student_id)).dedup).length ∧
      st.active_students = st.total_students) := by
  constructor
  · intro h
    cases data with
    | nil => exact absurd rfl h
    | cons d0 rest => simp [calculateStats]
  · intro st hst
    cases data with
    | nil => simp [calculateStats] at hst
    | cons d0 rest =>
        simp only [calculateStats] at hst
        obtain rfl := Option.some.inj hst
        constructor
        · simp only [List.length_map]
          rw [jsMapOfList_length, List.map_map]
          rfl
        · rfl

/-- Witness for C9: two rows over two distinct student ids give
`total_students = active_students = 2`. -/
theorem calculateStats_spec_witness :
    ((([⟨1, 7, 1, 40, 0, 1, 2, 3⟩, ⟨2, 8, 1, 10, 0, 1, 2, 3⟩] : List Student).map
          (fun s => s.student_id)).dedup).length = 2 ∧
    (2 : ℕ) = 2 := by
  have h := (calculateStats_spec
    [⟨1, 7, 1, 40, 0, 1, 2, 3⟩, ⟨2, 8, 1, 10, 0, 1, 2, 3⟩]).2
    { total_students := 2, active_students := 2, avg_score := none,
      top_performer := some ("Student 7", none) } (by decide)
  exact ⟨h.1.symm, h.2⟩

/-- C5: whenever `handleGenerate` posts a payload, the difficulty map has
enum-cased keys whose values are `Math.round(percentage / 10)`, each
within 5 of one tenth of the percentage (i.e. the nearest integer to
`percentage / 10`); in particular the distribution `{easy 30, medium 50,
hard 20}` is sent as `{Easy 3, Medium 5, Hard 2}`. -/
theorem handleGenerate_difficulty_map (ss su st ae : String)
    (topics : List SelectOption) (d : Difficulty) (pl : GeneratePayload)
    (h : handleGenerate ss su st ae topics d = some pl) :
    pl.difficulty_distribution
      = ⟨jsRound d.easy 10, jsRound d.medium 10, jsRound d.hard 10⟩ ∧
    (∀ p : ℕ, |10 * (jsRound p 10 : ℤ) - p| ≤ 5) ∧
    (∀ pl2, handleGenerate ss su st ae topics ⟨30, 50, 20⟩ = some pl2 →
      pl2.difficulty_distribution = ⟨3, 5, 2⟩) := by
  by_cases hg : ss = "" ∨ su = "" ∨ st = ""
  · rw [handleGenerate, if_pos hg] at h
    exact absurd h (by simp)
  · rw [handleGenerate, if_neg hg] at h
    refine ⟨?_, ?_, ?_⟩
    · obtain rfl := Option.some.inj h
      rfl
    · intro p
      have hb := jsRound_bounds p 10 (by norm_num)
      rw [abs_le]
      unfold jsRound at hb ⊢
      constructor <;> omega
    · intro pl2 h2
      rw [handleGenerate, if_neg hg] at h2
      obtain rfl := Option.some.inj h2
      have : jsRound 30 10 = 3 ∧ jsRound 50 10 = 5 ∧ jsRound 20 10 = 2 := by decide
      simp [this.1, this.2.1, this.2.2]

/-- Witness for C5: generating with subject 1, unit 2, topic 3 and the
initial distribution posts the difficulty map `{Easy 3, Medium 5, Hard 2}`. -/
theorem handleGenerate_difficulty_map_witness :
    (handleGenerate ("1") ("2") ("3") ("openai") [] ⟨30, 50, 20⟩).map
        (fun pl => pl.difficulty_distribution)
      = some ⟨3, 5, 2⟩ := by
  have h := handleGenerate_difficulty_map ("1") ("2") ("3") ("openai") []
    ⟨30, 50, 20⟩
    { subject_id := some 1, paper_model_id := 1, ai_engine := "OPENAI",
      difficulty_distribution := ⟨3, 5, 2⟩,
      unit_topic_map := [(("2"), JsVal.str "")],
      marks_map_easy := 5, marks_map_medium := 10, marks_map_hard := 15,
      generated_by := 1 } (by decide)
  have he : handleGenerate ("1") ("2") ("3") ("openai") [] ⟨30, 50, 20⟩
      = some { subject_id := some 1, paper_model_id := 1, ai_engine := "OPENAI",
               difficulty_distribution := ⟨3, 5, 2⟩,
               unit_topic_map := [(("2"), JsVal.str "")],
               marks_map_easy := 5, marks_map_medium := 10, marks_map_hard := 15,
               generated_by := 1 } := by decide
  rw [he]
  simp [h.1]
